import Mathlib

/-!
Verification of the annotation persistence and session-authentication
subsystem of the flatmap server (`mapserver/annotator.py`).

The embedding models:
  * JSON-ish values (`JValue`), as the payloads, creators and features are
    Python dicts carried as JSON; objects keep insertion order, as Python
    dicts do.
  * the two sqlite tables `annotations` and `features` as lists of rows
    (`Store`); rowids of the append-only `annotations` table are the
    1-based list positions, matching sqlite's rowid assignment for a table
    that never deletes rows.
  * `AnnotationStore.add_annotation` including sqlite fault injection: an
    `OperationalError` raised by a designated statement of the transaction.
    The connection is opened and closed per request by every route handler,
    and closing a sqlite connection without commit rolls the transaction
    back, so the store a later request observes is the committed state:
    `addAnnotationOp` returns that committed state.
  * the module-level session dictionary and the `__authenticated` decorator.
-/

namespace Flatmap

/-- JSON-like values. Objects are encoded as chains
`objCons key value rest` ending in `objNil`, mirroring an insertion-ordered
Python dict; arrays and numbers do not occur in any modelled code path. -/
inductive JValue where
  | null : JValue
  | bool (b : Bool) : JValue
  | str (s : String) : JValue
  | objNil : JValue
  | objCons (key : String) (value : JValue) (rest : JValue) : JValue
deriving DecidableEq, Repr

/-- Python truthiness of a JSON value: `None`, `False`, the empty string and
the empty dict are falsy. -/
def jtruthy : JValue → Bool
  | .null => false
  | .bool b => b
  | .str s => ! (s == "")
  | .objNil => false
  | .objCons _ _ _ => true

/-- Truthiness of `dict.get`'s result, where a missing key gives `None`. -/
def jtruthyOpt : Option JValue → Bool
  | none => false
  | some v => jtruthy v

/-- Lookup in an object chain: Python `dict.get(key)`. -/
def jget : JValue → String → Option JValue
  | .objCons k v rest, key => if k = key then some v else jget rest key
  | _, _ => none

/-- Removal of a key from an object chain: the effect of
`dict.pop(key, None)` on the dict. -/
def jremove : JValue → String → JValue
  | .objCons k v rest, key =>
      if k = key then jremove rest key else .objCons k v (jremove rest key)
  | v, _ => v

/-- Python `isinstance(value, dict)`. -/
def jisDict : JValue → Bool
  | .objNil => true
  | .objCons _ _ _ => true
  | _ => false

/-- Serializer behind `json.dumps` with its default separators
`(", ", ": ")`: the flag is `true` for a whole value and `false` for the
tail of an object's key/value list.  String escaping is not modelled; every
string appearing in this development is free of characters that `json.dumps`
would escape. -/
def jdumpAux : Bool → JValue → String
  | _, .null => "null"
  | _, .bool b => cond b "true" "false"
  | _, .str s => "\"" ++ s ++ "\""
  | true, .objNil => "\x7b\x7d"
  | false, .objNil => ""
  | true, .objCons k v rest =>
      "\x7b\"" ++ k ++ "\": " ++ jdumpAux true v ++ jdumpAux false rest ++ "\x7d"
  | false, .objCons k v rest =>
      ", \"" ++ k ++ "\": " ++ jdumpAux true v ++ jdumpAux false rest

/-- Python `json.dumps(value)`. -/
def jdump (v : JValue) : String := jdumpAux true v

/-- Row of the sqlite table
`annotations(resource text, item text, created text, orcid text, creator text, annotation text)`.
The `creator` column holds `json.dumps` of the canUpdate-stripped creator and
the last column holds `json.dumps` of the leftover payload fields; both are
kept structured here, and the serializer is applied where a query compares
the column text. -/
structure AnnotationRow where
  resource : String
  item : String
  created : String
  orcid : JValue
  creator : JValue
  annotationBlob : JValue
deriving DecidableEq, Repr

/-- Row of the sqlite table
`features(resource text, item text, deleted text, annotation text, feature text)`.
`deleted` is `NULL` (`none`) while the feature is current, else the rowid of
the superseding annotation; `annotationId` is the `annotation` column, the
rowid of the annotation that produced the feature. -/
structure FeatureRow where
  resource : String
  item : String
  deleted : Option Nat
  annotationId : Nat
  feature : JValue
deriving DecidableEq, Repr

/-- Contents of the annotation database: both tables, in rowid order.
Annotation rowids are the 1-based positions in `annRows`. -/
structure Store where
  annRows : List AnnotationRow
  featRows : List FeatureRow
deriving DecidableEq, Repr

/-- Freshly created annotation store: both tables empty. -/
def emptyStore : Store := ⟨[], []⟩

/-- Argument dict of `AnnotationStore.add_annotation`, split by the keys the
method pops.  The typescript interface declared in the source file types
`resource`, `item` and `created` as strings, `creator` and `feature` as
objects; `rest` is the dict after the five pops, stored as the opaque
annotation blob. -/
structure Payload where
  created : Option String
  creator : Option JValue
  resource : Option String
  item : Option String
  feature : Option JValue
  rest : JValue
deriving DecidableEq, Repr

/-- Result dict of `add_annotation`: it may carry `annotationId`, `error`,
both (statement failure after the annotation insert) or neither (validation
failure). -/
structure AddResult where
  annotationId : Option Nat
  error : Option String
deriving DecidableEq, Repr

/-- Statements of the `add_annotation` transaction that touch sqlite and can
raise `sqlite3.OperationalError`. -/
inductive Stmt where
  | insertAnn : Stmt
  | updateFeatures : Stmt
  | insertFeature : Stmt
  | commit : Stmt
deriving DecidableEq, Repr

/-- Injected storage failure: the named statement, if executed, raises
`OperationalError` with the given message. -/
structure Fault where
  stmt : Stmt
  msg : String
deriving DecidableEq, Repr

/-- Whether the injected fault hits the given statement. -/
def failsAt (fault : Option Fault) (stmt : Stmt) : Bool :=
  match fault with
  | some f => f.stmt = stmt
  | none => false

/-- Message carried by the injected fault, as `str(err)`. -/
def errMsg : Option Fault → Option String
  | some f => some f.msg
  | none => none

/-- Effect of
`update features set deleted=? where deleted is null and resource=? and item=?`:
every still-current row of the (resource, item) pair becomes superseded by
the new annotation's rowid. -/
def markSuperseded (newId : Nat) (r i : String) (rows : List FeatureRow) :
    List FeatureRow :=
  rows.map fun fr =>
    if fr.deleted = none ∧ fr.resource = r ∧ fr.item = i then
      { fr with deleted := some newId }
    else fr

/-- Guard `if feature and isinstance(feature, dict)` of `add_annotation`. -/
def hasFeature (p : Payload) : Bool :=
  match p.feature with
  | some fv => jtruthy fv && jisDict fv
  | none => false

/-- Validation guard of `add_annotation`:
`if (resource_id and item_id and creator and (orcid := creator.get('orcid')))`.
A missing key gives `None`; empty strings and empty dicts are falsy. -/
def validPayload (p : Payload) : Bool :=
  match p.resource, p.item, p.creator with
  | some r, some i, some c =>
      (! (r == "")) && (! (i == "")) && jtruthy c && jtruthyOpt (jget c "orcid")
  | _, _, _ => false

/-- Method `AnnotationStore.add_annotation(annotation)`.

`now` is `datetime.now(tz=timezone.utc).isoformat(timespec='seconds')`, the
default for a missing `created`.  `fault` injects an `OperationalError` into
one statement of the transaction; the method catches it and stores `str(err)`
under `error`.  The returned store is the state committed to disk: the route
handler closes the connection right after the call, and closing without the
final `commit` rolls every uncommitted statement back, so a failed call
leaves the store as it was.  `cursor.lastrowid` after the successful insert
into the append-only table is its new length, and is never `None`. -/
def addAnnotationOp (now : String) (fault : Option Fault) (s : Store)
    (p : Payload) : AddResult × Store :=
  match p.resource, p.item, p.creator with
  | some r, some i, some c =>
      if (! (r == "")) && (! (i == "")) && jtruthy c && jtruthyOpt (jget c "orcid") then
        let created := p.created.getD now
        if failsAt fault .insertAnn then (⟨none, errMsg fault⟩, s)
        else
          let newId := s.annRows.length + 1
          let annRows' := s.annRows ++
            [⟨r, i, created, (jget c "orcid").getD .null, jremove c "canUpdate", p.rest⟩]
          if failsAt fault .updateFeatures then (⟨some newId, errMsg fault⟩, s)
          else
            let feats1 := markSuperseded newId r i s.featRows
            if hasFeature p then
              if failsAt fault .insertFeature then (⟨some newId, errMsg fault⟩, s)
              else if failsAt fault .commit then (⟨some newId, errMsg fault⟩, s)
              else (⟨some newId, none⟩,
                    ⟨annRows', feats1 ++ [⟨r, i, none, newId, p.feature.getD .null⟩]⟩)
            else
              if failsAt fault .commit then (⟨some newId, errMsg fault⟩, s)
              else (⟨some newId, none⟩, ⟨annRows', feats1⟩)
      else (⟨none, none⟩, s)
  | _, _, _ => (⟨none, none⟩, s)

/-- Committed store after a sequence of `add_annotation` calls, each with its
own clock value, fault injection and payload. -/
def runAdds (calls : List (String × Option Fault × Payload)) (s : Store) : Store :=
  calls.foldl (fun st c => (addAnnotationOp c.1 c.2.1 st c.2.2).2) s

/-- Table rows paired with their rowids, which for the append-only
`annotations` table are the 1-based positions. -/
def numberRows : Nat → List AnnotationRow → List (Nat × AnnotationRow)
  | _, [] => []
  | n, a :: l => (n, a) :: numberRows (n + 1) l

/-- WHERE clause built by `AnnotationStore.annotations`: no filter without a
resource (an item filter alone is never applied), `resource=?` alone, or
`resource=? and item=?`. -/
def matchesFilter (resQ itemQ : Option String) (a : AnnotationRow) : Bool :=
  match resQ with
  | none => true
  | some r =>
      decide (a.resource = r) &&
        (match itemQ with
         | none => true
         | some i => decide (a.item = i))

/-- Record shape produced by `AnnotationStore.annotations` for one row:
`annotationId`, `resource`, `item`, `created`, the deserialized creator and,
flattened into the dict, the deserialized annotation blob (kept here as
`extra`). -/
structure AnnRecord where
  annotationId : Nat
  resource : String
  item : String
  created : String
  creator : JValue
  extra : JValue
deriving DecidableEq, Repr

/-- Record built from a numbered annotation row. -/
def toAnnRecord (x : Nat × AnnotationRow) : AnnRecord :=
  ⟨x.1, x.2.resource, x.2.item, x.2.created, x.2.creator, x.2.annotationBlob⟩

/-- Lexicographic comparison of code-point sequences, the order sqlite's
default BINARY collation induces on its UTF-8 text values. -/
def charsLt : List Char → List Char → Bool
  | [], [] => false
  | [], _ :: _ => true
  | _ :: _, [] => false
  | a :: as, b :: bs =>
      if a.toNat < b.toNat then true
      else if a.toNat = b.toNat then charsLt as bs
      else false

/-- Strict text order of sqlite's BINARY collation. -/
def strLt (a b : String) : Bool := charsLt a.data b.data

/-- Reflexive text order of sqlite's BINARY collation. -/
def strLe (a b : String) : Bool := ! strLt b a

/-- Row order of `order by created desc, creator`: later `created` text
first; on equal `created`, ascending text of the `creator` column, which
holds the serialized creator dict. -/
def annLe (a b : AnnRecord) : Prop :=
  strLt b.created a.created = true ∨
    (a.created = b.created ∧ strLe (jdump a.creator) (jdump b.creator) = true)

instance : DecidableRel annLe := fun _ _ =>
  inferInstanceAs (Decidable (_ ∨ _ ∧ _))

/-- Method `AnnotationStore.annotations(resource_id, item_id)`: the filtered
rows of the `annotations` table as records, ordered by
`created desc, creator`.  Rows tied on both keys keep table order, which is
how the scan delivers them. -/
def annotationsOp (s : Store) (resQ itemQ : Option String) : List AnnRecord :=
  List.insertionSort annLe
    (((numberRows 1 s.annRows).filter fun x => matchesFilter resQ itemQ x.2).map
      toAnnRecord)

/-- Annotation row addressed by `a.rowid = ?`. -/
def getAnnRow (s : Store) (id : Nat) : Option AnnotationRow :=
  if id = 0 then none else s.annRows.get? (id - 1)

/-- Feature rows satisfying the join condition `a.rowid = f.annotation` for
the given annotation rowid. -/
def featRowsFor (s : Store) (id : Nat) : List FeatureRow :=
  s.featRows.filter fun fr => decide (fr.annotationId = id)

/-- Rows a LEFT JOIN contributes for one annotation: the matching feature
rows, or a single all-NULL extension when none matches. -/
def joinedRows (s : Store) (id : Nat) : List (Option FeatureRow) :=
  match featRowsFor s id with
  | [] => [none]
  | l => l.map some

/-- Record shape produced by `AnnotationStore.annotation`: the annotation
columns plus a `feature` field, `None` when the join row's feature column is
NULL. -/
structure AnnFeatRecord where
  annotationId : Nat
  resource : String
  item : String
  created : String
  creator : JValue
  feature : Option JValue
  extra : JValue
deriving DecidableEq, Repr

/-- Method `AnnotationStore.annotation(annotation_id)`: the query
`select ... from annotations as a left join features as f on a.rowid = f.annotation
where a.rowid=? and f.deleted is null` followed by `fetchone()`; `none`
models the empty dict returned when no row comes back. -/
def annotationOp (s : Store) (id : Nat) : Option AnnFeatRecord :=
  match getAnnRow s id with
  | none => none
  | some a =>
      match (joinedRows s id).filter
          (fun fo => match fo with
            | none => true
            | some fr => decide (fr.deleted = none)) with
      | [] => none
      | fo :: _ =>
          some ⟨id, a.resource, a.item, a.created, a.creator,
                fo.map (·.feature), a.annotationBlob⟩

/-- Module-level dict `__sessions`, observed through lookups. -/
def Sessions := String → Option JValue

/-- Session registry of a freshly started process: the empty dict. -/
def noSessions : Sessions := fun _ => none

/-- Function `__session_key(key)`, i.e. `str(uuid.uuid5(uuid.NAMESPACE_URL, key))`.
Modelled from the spec: `uuid.uuid5` lives in the Python standard library,
outside this repository; the spec describes it as a deterministic stable
namespaced derivation of the credential key, modelled here by deterministic
tagging. -/
def sessionKey (key : String) : String := "uuid5:" ++ key

/-- Function `__new_session(key, data)`: stores `data` under the derived
token, overwriting any prior entry, and returns the token. -/
def newSession (key : String) (data : JValue) (s : Sessions) : String × Sessions :=
  let tok := sessionKey key
  (tok, fun t => if t = tok then some data else s t)

/-- Function `__session_data(session_key)`: `__sessions.get(session_key)`. -/
def sessionData (s : Sessions) (tok : String) : Option JValue := s tok

/-- Function `__del_session(session_key)`:
`__sessions.pop(session_key, None) is not None`, returning the registry
without the token and whether an entry existed. -/
def delSession (tok : String) (s : Sessions) : Sessions × Bool :=
  (fun t => if t = tok then none else s t, (s tok).isSome)

/-- Credential parameters a request carries: the `key` and `session` query
(or JSON body) parameters, each possibly absent. -/
structure Request where
  key : Option String
  session : Option String

/-- Outcome at the `__authenticated` boundary: the wrapped handler's value,
or the 403 `forbidden` response produced without calling it. -/
inductive GateResult (α : Type) where
  | forbidden : GateResult α
  | ok (value : α) : GateResult α
deriving DecidableEq, Repr

/-- Value bound to `flask.g.update`: `data.get('canUpdate', False)`, read for
its truthiness. -/
def getUpdateFlag (data : JValue) : Bool :=
  jtruthyOpt (jget data "canUpdate")

/-- Decorator `__authenticated`: the wrapped handler `f` runs, seeing the
update flag, exactly when both parameters are present, the token equals the
key's derived token and the registry holds data for it; otherwise the
handler is not called and the 403 response is returned with the store left
as it was. -/
def authGate {α : Type} (req : Request) (sess : Sessions)
    (f : Bool → Store → Store × α) (s : Store) : Store × GateResult α :=
  match req.key, req.session with
  | some key, some tok =>
      if tok = sessionKey key then
        match sessionData sess tok with
        | some data =>
            let r := f (getUpdateFlag data) s
            (r.1, .ok r.2)
        | none => (s, .forbidden)
      else (s, .forbidden)
  | _, _ => (s, .forbidden)

/-- Route handler `authenticate`: resolves the identity of `key` and creates
a session on success.  `getUser` stands for `pennsieve.get_user`, an external
collaborator; `none` models its error result, upon which no session is
created (`none` returned in place of the 403 response). -/
def authenticate (getUser : String → Option JValue) (keyQ : Option String)
    (sess : Sessions) : Sessions × Option String :=
  match keyQ with
  | none => (sess, none)
  | some key =>
      match getUser key with
      | none => (sess, none)
      | some data =>
          let r := newSession key data sess
          (r.2, some r.1)

/-- Route handler `unauthenticate`: it builds the success response and
returns; no call of `__del_session` (or any other registry access) occurs in
its body, so the registry is returned unchanged. -/
def unauthenticate (sess : Sessions) : Sessions × String :=
  (sess, "\x7b\"success\": \"Unauthenticated\"\x7d")

/-- Route handler `download`: not wrapped in `__authenticated`; it answers
`annotations()` of a fresh store handle.  The registry and the request's
credential parameters, though available to every handler, are taken as
arguments only to express that the body never consults them. -/
def download (_sess : Sessions) (_req : Request) (s : Store) : List AnnRecord :=
  annotationsOp s none none

/-! ### Helper notions for the feature-table invariants -/

/-- Whether a feature row is the current (undeleted) feature of the pair. -/
def isCurrentFor (r i : String) (fr : FeatureRow) : Bool :=
  decide (fr.resource = r ∧ fr.item = i ∧ fr.deleted = none)

/-- Number of feature rows of the pair with `deleted` NULL. -/
def currentCount (s : Store) (r i : String) : Nat :=
  s.featRows.countP (isCurrentFor r i)

/-- Single-current-feature property: at most one feature row per
(resource, item) pair has `deleted` NULL. -/
def SingleCurrent (s : Store) : Prop :=
  ∀ r i, currentCount s r i ≤ 1

lemma countP_markSuperseded_self (n : Nat) (r i : String) (l : List FeatureRow) :
    (markSuperseded n r i l).countP (isCurrentFor r i) = 0 := by
  rw [List.countP_eq_zero]
  intro fr hfr
  rcases List.mem_map.mp hfr with ⟨fr0, _, heq⟩
  subst heq
  by_cases hc : fr0.deleted = none ∧ fr0.resource = r ∧ fr0.item = i
  · simp [hc, isCurrentFor]
  · simp only [if_neg hc, isCurrentFor, decide_eq_true_eq]
    rintro ⟨h1, h2, h3⟩
    exact hc ⟨h3, h1, h2⟩

lemma countP_markSuperseded_other (n : Nat) (r i r' i' : String)
    (hne : ¬(r' = r ∧ i' = i)) (l : List FeatureRow) :
    (markSuperseded n r i l).countP (isCurrentFor r' i') =
      l.countP (isCurrentFor r' i') := by
  unfold markSuperseded
  rw [List.countP_map]
  apply List.countP_congr
  intro fr _
  by_cases hc : fr.deleted = none ∧ fr.resource = r ∧ fr.item = i
  · simp only [Function.comp_apply, if_pos hc]
    have h1 : isCurrentFor r' i' { fr with deleted := some n } = false := by
      simp [isCurrentFor]
    have h2 : isCurrentFor r' i' fr = false := by
      simp only [isCurrentFor, decide_eq_false_iff_not]
      rintro ⟨hr, hi, _⟩
      exact hne ⟨by rw [← hr, hc.2.1], by rw [← hi, hc.2.2]⟩
    rw [h1, h2]
  · simp only [Function.comp_apply, if_neg hc]

lemma markSuperseded_length (n : Nat) (r i : String) (l : List FeatureRow) :
    (markSuperseded n r i l).length = l.length := by
  simp [markSuperseded]

/-- Invariant preservation: one `add_annotation` call, whatever its clock,
fault injection and payload, keeps at most one current feature row per
pair. -/
lemma singleCurrent_step (now : String) (fault : Option Fault) (s : Store)
    (p : Payload) (h : SingleCurrent s) :
    SingleCurrent (addAnnotationOp now fault s p).2 := by
  unfold addAnnotationOp
  rcases p with ⟨created, creator, resource, item, feature, rest⟩
  rcases resource with _ | r
  · exact h
  rcases item with _ | i
  · exact h
  rcases creator with _ | c
  · exact h
  simp only
  split
  · split
    · exact h
    · split
      · exact h
      · split
        · split
          · exact h
          · split
            · exact h
            · intro r' i'
              unfold currentCount
              simp only [List.countP_append]
              by_cases hpair : r' = r ∧ i' = i
              · rcases hpair with ⟨hr, hi⟩
                subst hr; subst hi
                rw [countP_markSuperseded_self]
                simp [isCurrentFor]
              · rw [countP_markSuperseded_other _ _ _ _ _ hpair]
                have : (([⟨r, i, none, s.annRows.length + 1,
                    feature.getD JValue.null⟩] : List FeatureRow).countP
                      (isCurrentFor r' i')) = 0 := by
                  simp only [List.countP_cons, List.countP_nil, isCurrentFor,
                    decide_eq_true_eq]
                  rw [if_neg]
                  rintro ⟨h1, h2, _⟩
                  exact hpair ⟨h1.symm, h2.symm⟩
                rw [this]
                simpa using h r' i'
        · split
          · exact h
          · intro r' i'
            unfold currentCount
            simp only
            by_cases hpair : r' = r ∧ i' = i
            · rcases hpair with ⟨hr, hi⟩
              subst hr; subst hi
              rw [countP_markSuperseded_self]
              exact Nat.zero_le 1
            · rw [countP_markSuperseded_other _ _ _ _ _ hpair]
              exact h r' i'
  · exact h

/-- CLAIM C1 — For every sequence of `add_annotation` calls starting from the
empty store (each call with any clock value, any injected storage fault and
any payload), every (resource, item) pair has at most one feature row with
`deleted` NULL afterwards: each add first marks all currently-undeleted rows
of the pair as superseded by the new annotation rowid and then inserts at
most one new row with `deleted` NULL. -/
theorem singleCurrent_invariant (calls : List (String × Option Fault × Payload)) :
    SingleCurrent (runAdds calls emptyStore) := by
  have aux : ∀ (cs : List (String × Option Fault × Payload)) (s : Store),
      SingleCurrent s → SingleCurrent (runAdds cs s) := by
    intro cs
    induction cs with
    | nil => intro s hs; exact hs
    | cons c rest ih =>
        intro s hs
        exact ih _ (singleCurrent_step c.1 c.2.1 s c.2.2 hs)
  exact aux calls emptyStore (by intro r i; simp [currentCount, emptyStore])

/-- Observation of one feature row's `deleted` column: `none` when the table
has no row at that position, else the column value. -/
def deletedAt (s : Store) (k : Nat) : Option (Option Nat) :=
  (s.featRows[k]?).map FeatureRow.deleted

lemma deletedAt_step (now : String) (fault : Option Fault) (s : Store)
    (p : Payload) (k : Nat) (d : Nat) (h : deletedAt s k = some (some d)) :
    deletedAt (addAnnotationOp now fault s p).2 k = some (some d) := by
  unfold deletedAt at h
  obtain ⟨fr, hk, hd⟩ : ∃ fr, s.featRows[k]? = some fr ∧ fr.deleted = some d := by
    rcases hk : s.featRows[k]? with _ | fr
    · rw [hk] at h; exact absurd h (by simp)
    · rw [hk] at h
      exact ⟨fr, rfl, by simpa using h⟩
  have hlt : k < s.featRows.length :=
    (List.getElem?_eq_some.mp hk).1
  have hmark : ∀ n r i, ((markSuperseded n r i s.featRows)[k]?).map
      FeatureRow.deleted = some (some d) := by
    intro n r i
    unfold markSuperseded
    rw [List.getElem?_map, hk]
    simp only [Option.map_some']
    rw [if_neg]
    · simp [hd]
    · rintro ⟨h1, _, _⟩
      rw [hd] at h1
      exact Option.noConfusion h1
  unfold addAnnotationOp
  rcases p with ⟨created, creator, resource, item, feature, rest⟩
  rcases resource with _ | r
  · exact h
  rcases item with _ | i
  · exact h
  rcases creator with _ | c
  · exact h
  simp only
  split
  · split
    · exact h
    · split
      · exact h
      · split
        · split
          · exact h
          · split
            · exact h
            · show ((_ ++ _ : List FeatureRow)[k]?).map FeatureRow.deleted = _
              rw [List.getElem?_append_left
                    (by rw [markSuperseded_length]; exact hlt)]
              exact hmark _ _ _
        · split
          · exact h
          · exact hmark _ _ _
  · exact h

/-- CLAIM C6 — Soft-delete monotonicity: once a feature row's `deleted`
column holds a superseding annotation rowid, no later `add_annotation` call
(whatever its clock, fault injection or payload) changes it again; the
column moves at most once, from NULL to a non-NULL value. -/
theorem deleted_monotone (calls : List (String × Option Fault × Payload))
    (s : Store) (k : Nat) (d : Nat) (h : deletedAt s k = some (some d)) :
    deletedAt (runAdds calls s) k = some (some d) := by
  induction calls generalizing s with
  | nil => exact h
  | cons c rest ih =>
      exact ih _ (deletedAt_step c.1 c.2.1 s c.2.2 k d h)

/-- Witness for `deleted_monotone`: a store whose single feature row is
already superseded by annotation 1 keeps that mark across a further add for
the same pair. -/
theorem deleted_monotone_witness :
    deletedAt
      (runAdds
        [("t2", none,
          ⟨some "t2", some (.objCons "orcid" (.str "0000-1") .objNil),
           some "map1", some "itemA", none, .objNil⟩)]
        ⟨[⟨"map1", "itemA", "t1", .str "0000-1", .objNil, .objNil⟩],
         [⟨"map1", "itemA", some 1, 1, .objNil⟩]⟩) 0 = some (some 1) :=
  deleted_monotone _ _ 0 1 (by decide)

/-- Payload whose `creator` key is missing: scenario C of the spec. -/
def payloadNoCreator : Payload :=
  ⟨some "2024-01-01T00:00:00+00:00", none, some "map1", some "itemA", none,
   .objCons "comment" (.str "x") .objNil⟩

/-- Well-formed payload carrying a feature, built on the test user of the
source file's interface comment. -/
def payloadValidFeat : Payload :=
  ⟨some "2024-01-01T00:00:00+00:00",
   some (.objCons "name" (.str "Test User")
          (.objCons "orcid" (.str "0000-0002-1825-0097")
            (.objCons "canUpdate" (.bool true) .objNil))),
   some "map1", some "itemA",
   some (.objCons "type" (.str "Point") .objNil),
   .objCons "comment" (.str "x") .objNil⟩

/-- CLAIM C2 counterexample — `add_annotation` on a payload with a missing
creator leaves the store untouched but returns the empty dict: the result
carries no `error` key, contrary to the claim that an error is returned. -/
theorem addNoCreator_counterexample :
    (addAnnotationOp "2024-01-02T00:00:00+00:00" none emptyStore
        payloadNoCreator).1.error = none ∧
    addAnnotationOp "2024-01-02T00:00:00+00:00" none emptyStore
        payloadNoCreator = (⟨none, none⟩, emptyStore) := by
  decide

/-- CLAIM C2 (amended) — When `resource`, `item`, the creator or the
creator's `orcid` is absent or empty, `add_annotation` returns the empty
result — no `annotationId` and also no `error` field — and writes nothing:
the store, and with it every `annotations()` listing, is unchanged.  When
all three are present and non-empty and no storage fault occurs, the result
carries the new annotation rowid. -/
theorem addValidation_spec (now : String) (fault : Option Fault) (s : Store)
    (p : Payload) :
    (validPayload p = false →
      addAnnotationOp now fault s p = (⟨none, none⟩, s) ∧
      ∀ resQ itemQ, annotationsOp (addAnnotationOp now fault s p).2 resQ itemQ =
        annotationsOp s resQ itemQ)
    ∧ (validPayload p = true → fault = none →
      (addAnnotationOp now fault s p).1 =
        ⟨some (s.annRows.length + 1), none⟩) := by
  rcases p with ⟨pc, pcr, pr, pi, pf, prest⟩
  constructor
  · intro hv
    have hstore : addAnnotationOp now fault s ⟨pc, pcr, pr, pi, pf, prest⟩ =
        (⟨none, none⟩, s) := by
      unfold addAnnotationOp
      rcases pr with _ | r
      · rfl
      rcases pi with _ | i
      · rfl
      rcases pcr with _ | c
      · rfl
      simp only
      rw [if_neg]
      simp only [validPayload] at hv
      simp [hv]
    exact ⟨hstore, fun resQ itemQ => by rw [hstore]⟩
  · intro hv hf
    subst hf
    unfold addAnnotationOp
    rcases pr with _ | r
    · simp [validPayload] at hv
    rcases pi with _ | i
    · simp [validPayload] at hv
    rcases pcr with _ | c
    · simp [validPayload] at hv
    simp only [validPayload] at hv
    simp only
    rw [if_pos hv]
    by_cases hfe : hasFeature ⟨pc, some c, some r, some i, pf, prest⟩ = true
    · simp [failsAt, hfe]
    · simp only [Bool.not_eq_true] at hfe
      simp [failsAt, hfe]

/-- Witness for `addValidation_spec`, at the missing-creator payload and at
the well-formed payload. -/
theorem addValidation_spec_witness :
    addAnnotationOp "t" none emptyStore payloadNoCreator =
      (⟨none, none⟩, emptyStore) ∧
    (addAnnotationOp "t" none emptyStore payloadValidFeat).1 =
      ⟨some 1, none⟩ :=
  ⟨((addValidation_spec "t" none emptyStore payloadNoCreator).1 (by decide)).1,
   (addValidation_spec "t" none emptyStore payloadValidFeat).2 (by decide) rfl⟩

/-- CLAIM C3 — If any sqlite statement executed inside the `add_annotation`
transaction raises `OperationalError` — the annotation insert, the
feature-superseding update, the feature insert (executed whenever the
payload carries a dict feature) or the commit — the call returns a result
carrying `error = str(err)` instead of propagating the fault, and the
committed store is exactly the pre-call store: the connection is closed
without commit, rolling back every statement, so no partial state is
observable to subsequent reads. -/
theorem addFault_rollback (now msg : String) (stmt : Stmt) (s : Store)
    (p : Payload) (hv : validPayload p = true)
    (hex : stmt = Stmt.insertFeature → hasFeature p = true) :
    (addAnnotationOp now (some ⟨stmt, msg⟩) s p).1.error = some msg ∧
    (addAnnotationOp now (some ⟨stmt, msg⟩) s p).2 = s := by
  rcases p with ⟨pc, pcr, pr, pi, pf, prest⟩
  unfold addAnnotationOp
  rcases pr with _ | r
  · simp [validPayload] at hv
  rcases pi with _ | i
  · simp [validPayload] at hv
  rcases pcr with _ | c
  · simp [validPayload] at hv
  simp only [validPayload] at hv
  simp only [hv, if_true]
  cases stmt with
  | insertAnn => simp [failsAt, errMsg]
  | updateFeatures => simp [failsAt, errMsg]
  | insertFeature =>
      have hfe : hasFeature ⟨pc, some c, some r, some i, pf, prest⟩ = true :=
        hex rfl
      simp [failsAt, errMsg, hfe]
  | commit =>
      by_cases hfe : hasFeature ⟨pc, some c, some r, some i, pf, prest⟩ = true
      · simp [failsAt, errMsg, hfe]
      · simp only [Bool.not_eq_true] at hfe
        simp [failsAt, errMsg, hfe]

/-- Witness for `addFault_rollback`: a fault during the feature-row insert,
after the annotation insert, still surfaces as an error result and leaves
the committed store empty. -/
theorem addFault_rollback_witness :
    (addAnnotationOp "t" (some ⟨Stmt.insertFeature, "disk I/O error"⟩)
        emptyStore payloadValidFeat).1.error = some "disk I/O error" ∧
    (addAnnotationOp "t" (some ⟨Stmt.insertFeature, "disk I/O error"⟩)
        emptyStore payloadValidFeat).2 = emptyStore :=
  addFault_rollback "t" "disk I/O error" Stmt.insertFeature emptyStore
    payloadValidFeat (by decide) (fun _ => by decide)

/-! ### Order lemmas for the `order by created desc, creator` sort -/

lemma charsLt_asymm : ∀ x y : List Char, charsLt x y = true → charsLt y x = false := by
  intro x
  induction x with
  | nil =>
      intro y hy
      cases y with
      | nil => exact absurd hy (by simp [charsLt])
      | cons b bs => simp [charsLt]
  | cons a as ih =>
      intro y hy
      cases y with
      | nil => exact absurd hy (by simp [charsLt])
      | cons b bs =>
          simp only [charsLt] at hy ⊢
          by_cases h1 : a.toNat < b.toNat
          · rw [if_neg (Nat.lt_asymm h1), if_neg (Nat.ne_of_gt h1)]
          · rw [if_neg h1] at hy
            by_cases h2 : a.toNat = b.toNat
            · rw [if_pos h2] at hy
              rw [if_neg (h2 ▸ Nat.lt_irrefl _), if_pos h2.symm]
              exact ih bs hy
            · rw [if_neg h2] at hy
              exact absurd hy (by simp)

lemma charsLt_trans : ∀ x y z : List Char,
    charsLt x y = true → charsLt y z = true → charsLt x z = true := by
  intro x
  induction x with
  | nil =>
      intro y z hxy hyz
      cases y with
      | nil => exact absurd hxy (by simp [charsLt])
      | cons b bs =>
          cases z with
          | nil => exact absurd hyz (by simp [charsLt])
          | cons c cs => simp [charsLt]
  | cons a as ih =>
      intro y z hxy hyz
      cases y with
      | nil => exact absurd hxy (by simp [charsLt])
      | cons b bs =>
          cases z with
          | nil => exact absurd hyz (by simp [charsLt])
          | cons c cs =>
              simp only [charsLt] at hxy hyz ⊢
              by_cases h1 : a.toNat < b.toNat
              · by_cases h2 : b.toNat < c.toNat
                · rw [if_pos (Nat.lt_trans h1 h2)]
                · rw [if_neg h2] at hyz
                  by_cases h3 : b.toNat = c.toNat
                  · rw [if_pos (h3 ▸ h1)]
                  · rw [if_neg h3] at hyz
                    exact absurd hyz (by simp)
              · rw [if_neg h1] at hxy
                by_cases h4 : a.toNat = b.toNat
                · rw [if_pos h4] at hxy
                  by_cases h2 : b.toNat < c.toNat
                  · rw [if_pos (h4 ▸ h2)]
                  · rw [if_neg h2] at hyz
                    by_cases h3 : b.toNat = c.toNat
                    · rw [if_pos h3] at hyz
                      rw [if_neg (by rw [h4, h3]; exact Nat.lt_irrefl _),
                          if_pos (h4.trans h3)]
                      exact ih bs cs hxy hyz
                    · rw [if_neg h3] at hyz
                      exact absurd hyz (by simp)
                · rw [if_neg h4] at hxy
                  exact absurd hxy (by simp)

lemma charsLt_connex : ∀ x y : List Char,
    charsLt x y = false → charsLt y x = false → x = y := by
  intro x
  induction x with
  | nil =>
      intro y hxy _
      cases y with
      | nil => rfl
      | cons b bs => exact absurd hxy (by simp [charsLt])
  | cons a as ih =>
      intro y hxy hyx
      cases y with
      | nil => exact absurd hyx (by simp [charsLt])
      | cons b bs =>
          simp only [charsLt] at hxy hyx
          by_cases h1 : a.toNat < b.toNat
          · rw [if_pos h1] at hxy
            exact absurd hxy (by simp)
          · rw [if_neg h1] at hxy
            by_cases h2 : a.toNat = b.toNat
            · rw [if_pos h2] at hxy
              rw [if_neg (h2 ▸ Nat.lt_irrefl _), if_pos h2.symm] at hyx
              have hchar : a = b := Char.ext (UInt32.toNat.inj h2)
              rw [hchar, ih bs hxy hyx]
            · rw [if_neg h2] at hxy
              have h3 : b.toNat < a.toNat :=
                Nat.lt_of_le_of_ne (Nat.le_of_not_lt h1)
                  (fun he => h2 he.symm)
              rw [if_pos h3] at hyx
              exact absurd hyx (by simp)

lemma strLt_asymm (a b : String) (h : strLt a b = true) : strLt b a = false :=
  charsLt_asymm _ _ h

lemma strLt_trans (a b c : String) (hab : strLt a b = true)
    (hbc : strLt b c = true) : strLt a c = true :=
  charsLt_trans _ _ _ hab hbc

lemma strLt_connex (a b : String) (hab : strLt a b = false)
    (hba : strLt b a = false) : a = b := by
  have hdata : a.data = b.data := charsLt_connex _ _ hab hba
  exact String.ext hdata

lemma strLe_of_not_lt (a b : String) (h : strLt b a = false) : strLe a b = true := by
  simp [strLe, h]

lemma strLe_trans (a b c : String) (hab : strLe a b = true)
    (hbc : strLe b c = true) : strLe a c = true := by
  simp only [strLe, Bool.not_eq_true'] at hab hbc ⊢
  by_contra hlt
  simp only [Bool.not_eq_false] at hlt
  by_cases hmid : strLt a b = true
  · exact absurd (strLt_trans _ _ _ hlt hmid) (by simp [hbc])
  · simp only [Bool.not_eq_true] at hmid
    have he : b = a := strLt_connex _ _ hab hmid
    rw [he] at hbc
    exact absurd hlt (by simp [hbc])

instance : IsTotal AnnRecord annLe where
  total a b := by
    by_cases hc : a.created = b.created
    · by_cases hd : strLt (jdump a.creator) (jdump b.creator) = true
      · exact Or.inl (Or.inr ⟨hc, strLe_of_not_lt _ _ (strLt_asymm _ _ hd)⟩)
      · simp only [Bool.not_eq_true] at hd
        exact Or.inr (Or.inr ⟨hc.symm, strLe_of_not_lt _ _ hd⟩)
    · by_cases h1 : strLt b.created a.created = true
      · exact Or.inl (Or.inl h1)
      · by_cases h2 : strLt a.created b.created = true
        · exact Or.inr (Or.inl h2)
        · simp only [Bool.not_eq_true] at h1 h2
          exact absurd (strLt_connex _ _ h2 h1) hc

instance : IsTrans AnnRecord annLe where
  trans a b c hab hbc := by
    rcases hab with h1 | ⟨he1, hd1⟩
    · rcases hbc with h2 | ⟨he2, _⟩
      · exact Or.inl (strLt_trans _ _ _ h2 h1)
      · exact Or.inl (by rw [← he2]; exact h1)
    · rcases hbc with h2 | ⟨he2, hd2⟩
      · exact Or.inl (by rw [he1]; exact h2)
      · exact Or.inr ⟨he1.trans he2, strLe_trans _ _ _ hd1 hd2⟩

/-- CLAIM C5 (amended) — `annotations(resource?, item?)` returns exactly the
records of the rows matching the filter (all rows when `resource` is
omitted), ordered newest first by `created` and, on equal `created`, by the
ascending text of the serialized creator dict — the `creator` column — not
by the creator identifier. -/
theorem annotations_sorted_perm (s : Store) (resQ itemQ : Option String) :
    List.Sorted annLe (annotationsOp s resQ itemQ) ∧
    (annotationsOp s resQ itemQ).Perm
      (((numberRows 1 s.annRows).filter fun x =>
          matchesFilter resQ itemQ x.2).map toAnnRecord) ∧
    (annotationsOp s none none).Perm
      ((numberRows 1 s.annRows).map toAnnRecord) := by
  refine ⟨List.sorted_insertionSort annLe _, List.perm_insertionSort annLe _, ?_⟩
  have hall : (numberRows 1 s.annRows).filter
      (fun x => matchesFilter none none x.2) = numberRows 1 s.annRows :=
    List.filter_eq_self.mpr (fun a _ => rfl)
  unfold annotationsOp
  rw [hall]
  exact List.perm_insertionSort annLe _

/-- Creator identifier carried inside a record's creator dict. -/
def recOrcid (a : AnnRecord) : String :=
  match jget a.creator "orcid" with
  | some (.str s) => s
  | _ => ""

/-- Ordering asserted by the spec's tie-break sentence, written from the
spec's words for comparison with the code's order `annLe`: newest first,
ties broken by the creator identifier ascending. -/
def claimTieLe (a b : AnnRecord) : Prop :=
  strLt b.created a.created = true ∨
    (a.created = b.created ∧ strLe (recOrcid a) (recOrcid b) = true)

instance : DecidableRel claimTieLe := fun _ _ =>
  inferInstanceAs (Decidable (_ ∨ _ ∧ _))

/-- Creator whose serialized dict sorts before `creatorHighName` although its
orcid sorts after it. -/
def creatorLowName : JValue :=
  .objCons "name" (.str "A") (.objCons "orcid" (.str "2") .objNil)

/-- Creator whose serialized dict sorts after `creatorLowName` although its
orcid sorts before it. -/
def creatorHighName : JValue :=
  .objCons "name" (.str "B") (.objCons "orcid" (.str "1") .objNil)

/-- Store holding two annotations with the same `created` timestamp whose
creator-JSON order and creator-identifier order disagree. -/
def storeTieBreak : Store :=
  (addAnnotationOp "n" none
    ((addAnnotationOp "n" none emptyStore
      ⟨some "2024-01-01T00:00:00+00:00", some creatorLowName, some "r",
       some "iA", none, .objNil⟩).2)
    ⟨some "2024-01-01T00:00:00+00:00", some creatorHighName, some "r",
     some "iB", none, .objNil⟩).2

/-- CLAIM C5 counterexample — On a store with two annotations that share a
`created` timestamp, `annotations("r")` lists the creator with identifier
"2" before the one with identifier "1" (the `creator` column text, led by
the name field, decides), so the output is not secondarily sorted by creator
identifier ascending. -/
theorem annotationsOrder_counterexample :
    (annotationsOp storeTieBreak (some "r") none).map AnnRecord.created =
      ["2024-01-01T00:00:00+00:00", "2024-01-01T00:00:00+00:00"] ∧
    (annotationsOp storeTieBreak (some "r") none).map recOrcid = ["2", "1"] ∧
    ¬ List.Sorted claimTieLe (annotationsOp storeTieBreak (some "r") none) := by
  decide

/-! ### Single-annotation lookup -/

lemma filter_head?_eq_find? (p : α → Bool) (l : List α) :
    (l.filter p).head? = l.find? p := by
  induction l with
  | nil => rfl
  | cons a l ih =>
      by_cases h : p a = true
      · simp [List.filter_cons, h]
      · simp only [Bool.not_eq_true] at h
        simp [List.filter_cons, h, ih]

/-- CLAIM C4 (amended) — `annotation(id)` returns the empty result for an
unknown rowid; for a known rowid with no feature row it returns the record
with `feature` null; for a known rowid whose feature row is still current it
returns the record with that feature; but for a known rowid all of whose
feature rows have been superseded (`deleted` non-null) it returns the empty
result as well, because the `f.deleted is null` condition of the left join
filters the annotation row away. -/
theorem annotationOp_spec (s : Store) (id : Nat) :
    (getAnnRow s id = none → annotationOp s id = none) ∧
    (∀ a, getAnnRow s id = some a → featRowsFor s id = [] →
      annotationOp s id =
        some ⟨id, a.resource, a.item, a.created, a.creator, none,
              a.annotationBlob⟩) ∧
    (∀ a fr, getAnnRow s id = some a →
      (featRowsFor s id).find? (fun fr => decide (fr.deleted = none)) = some fr →
      annotationOp s id =
        some ⟨id, a.resource, a.item, a.created, a.creator, some fr.feature,
              a.annotationBlob⟩) ∧
    (∀ a, getAnnRow s id = some a → featRowsFor s id ≠ [] →
      (∀ fr ∈ featRowsFor s id, fr.deleted ≠ none) →
      annotationOp s id = none) := by
  refine ⟨?_, ?_, ?_, ?_⟩
  · intro h
    unfold annotationOp
    rw [h]
  · intro a ha hempty
    unfold annotationOp joinedRows
    rw [ha, hempty]
    rfl
  · intro a fr ha hfind
    unfold annotationOp joinedRows
    rw [ha]
    rcases hrows : featRowsFor s id with _ | ⟨fr0, rest⟩
    · rw [hrows] at hfind
      exact absurd hfind (by simp)
    · rw [hrows] at hfind
      have hfilter :
          ((fr0 :: rest).map some).filter
            (fun fo => match fo with
              | none => true
              | some fr => decide (fr.deleted = none)) =
          ((fr0 :: rest).filter (fun fr => decide (fr.deleted = none))).map some := by
        rw [List.filter_map]
        rfl
      rw [hfilter]
      have hhead :
          (((fr0 :: rest).filter (fun fr => decide (fr.deleted = none))).map
            some).head? = some (some fr) := by
        rw [List.head?_map, filter_head?_eq_find?, hfind]
        rfl
      rcases hres : ((fr0 :: rest).filter
          (fun fr => decide (fr.deleted = none))).map some with _ | ⟨fo, fos⟩
      · rw [hres] at hhead
        exact absurd hhead (by simp)
      · rw [hres] at hhead
        simp only [List.head?_cons, Option.some.injEq] at hhead
        simp [hres, hhead]
  · intro a ha hne hall
    unfold annotationOp joinedRows
    rw [ha]
    rcases hrows : featRowsFor s id with _ | ⟨fr0, rest⟩
    · exact absurd hrows hne
    · have hfilter :
          ((fr0 :: rest).map some).filter
            (fun fo => match fo with
              | none => true
              | some fr => decide (fr.deleted = none)) =
          ((fr0 :: rest).filter (fun fr => decide (fr.deleted = none))).map some := by
        rw [List.filter_map]
        rfl
      rw [hfilter]
      have hnil : (fr0 :: rest).filter (fun fr => decide (fr.deleted = none)) = [] := by
        rw [List.filter_eq_nil_iff]
        intro fr hfr
        have := hall fr (hrows ▸ hfr)
        simpa using this
      rw [hnil]
      rfl

/-- Payload for the same pair as `payloadValidFeat` but carrying no feature:
adding it supersedes the prior feature without replacement. -/
def payloadValidNoFeat : Payload :=
  ⟨some "2024-01-02T00:00:00+00:00",
   some (.objCons "name" (.str "Test User")
          (.objCons "orcid" (.str "0000-0002-1825-0097")
            (.objCons "canUpdate" (.bool true) .objNil))),
   some "map1", some "itemA", none,
   .objCons "comment" (.str "y") .objNil⟩

/-- Store where annotation 1 produced a feature that annotation 2 has since
superseded. -/
def storeSuperseded : Store :=
  (addAnnotationOp "n" none
    ((addAnnotationOp "n" none emptyStore payloadValidFeat).2)
    payloadValidNoFeat).2

/-- CLAIM C4 counterexample — Annotation rowid 1 is known (the store holds
two annotation rows), its feature has been superseded by annotation 2, yet
`annotation(1)` returns the empty result instead of the record with
`feature` null that the claim promises. -/
theorem annotationSuperseded_counterexample :
    (getAnnRow storeSuperseded 1).isSome = true ∧
    storeSuperseded.featRows =
      [⟨"map1", "itemA", some 2, 1, .objCons "type" (.str "Point") .objNil⟩] ∧
    annotationOp storeSuperseded 1 = none := by
  decide

/-- Witness for `annotationOp_spec`: the unknown rowid 7 gives the empty
result, and on `storeSuperseded` rowid 2 (no feature row) gives the record
with `feature` null while rowid 1 (superseded feature row) gives the empty
result. -/
theorem annotationOp_spec_witness :
    annotationOp storeSuperseded 7 = none ∧
    annotationOp storeSuperseded 2 =
      some ⟨2, "map1", "itemA", "2024-01-02T00:00:00+00:00",
            .objCons "name" (.str "Test User")
              (.objCons "orcid" (.str "0000-0002-1825-0097") .objNil),
            none, .objCons "comment" (.str "y") .objNil⟩ ∧
    annotationOp storeSuperseded 1 = none :=
  ⟨(annotationOp_spec storeSuperseded 7).1 (by decide),
   (annotationOp_spec storeSuperseded 2).2.1
     ⟨"map1", "itemA", "2024-01-02T00:00:00+00:00",
      .str "0000-0002-1825-0097",
      .objCons "name" (.str "Test User")
        (.objCons "orcid" (.str "0000-0002-1825-0097") .objNil),
      .objCons "comment" (.str "y") .objNil⟩ (by decide) (by decide),
   (annotationOp_spec storeSuperseded 1).2.2.2
     ⟨"map1", "itemA", "2024-01-01T00:00:00+00:00",
      .str "0000-0002-1825-0097",
      .objCons "name" (.str "Test User")
        (.objCons "orcid" (.str "0000-0002-1825-0097") .objNil),
      .objCons "comment" (.str "x") .objNil⟩ (by decide) (by decide)
     (by decide)⟩

/-! ### Session registry and authorization gate -/

/-- CLAIM C7 — Registry laws: `__session_key` is deterministic (equal keys
derive equal tokens); `__new_session` returns the derived token and a later
`__session_data` lookup of it yields the stored data, also when an entry for
the same token existed before (overwrite); `__del_session` removes the
token, so its lookup yields `None`, and reports `true` exactly when an entry
existed. -/
theorem session_registry_laws :
    (∀ k1 k2 : String, k1 = k2 → sessionKey k1 = sessionKey k2) ∧
    (∀ (k : String) (d : JValue) (sess : Sessions),
      (newSession k d sess).1 = sessionKey k ∧
      sessionData (newSession k d sess).2 (sessionKey k) = some d) ∧
    (∀ (k : String) (d dPrior : JValue) (sess : Sessions),
      sessionData (newSession k d (newSession k dPrior sess).2).2
        (sessionKey k) = some d) ∧
    (∀ (tok : String) (sess : Sessions),
      sessionData (delSession tok sess).1 tok = none) ∧
    (∀ (tok : String) (sess : Sessions),
      (delSession tok sess).2 = true ↔ (sessionData sess tok).isSome = true) := by
  refine ⟨fun k1 k2 h => by rw [h], fun k d sess => ⟨rfl, ?_⟩,
          fun k d dPrior sess => ?_, fun tok sess => ?_, fun tok sess => ?_⟩
  · simp [newSession, sessionData]
  · simp [newSession, sessionData]
  · simp [delSession, sessionData]
  · simp [delSession, sessionData]

/-- Witness for `session_registry_laws` at the key `"api-key"` and concrete
user data. -/
theorem session_registry_laws_witness :
    sessionKey "api-key" = sessionKey "api-key" ∧
    sessionData
      (newSession "api-key" (.objCons "canUpdate" (.bool true) .objNil)
        noSessions).2 (sessionKey "api-key") =
      some (.objCons "canUpdate" (.bool true) .objNil) ∧
    sessionData (delSession (sessionKey "api-key") noSessions).1
      (sessionKey "api-key") = none :=
  ⟨session_registry_laws.1 "api-key" "api-key" rfl,
   (session_registry_laws.2.1 "api-key"
     (.objCons "canUpdate" (.bool true) .objNil) noSessions).2,
   session_registry_laws.2.2.2.1 (sessionKey "api-key") noSessions⟩

/-- CLAIM C8 — The code contradicts the claim: the `unauthenticate` route
returns its success response without touching the registry, so a session
created by a successful `authenticate(key)` is still found under its token
afterwards; `__del_session` exists but is never called. -/
theorem unauthenticate_leaves_session (getUser : String → Option JValue)
    (key : String) (data : JValue) (sess : Sessions)
    (h : getUser key = some data) :
    sessionData (unauthenticate (authenticate getUser (some key) sess).1).1
      (sessionKey key) = some data ∧
    (unauthenticate sess).1 = sess := by
  constructor
  · simp [authenticate, h, unauthenticate, newSession, sessionData]
  · rfl

/-- Witness for `unauthenticate_leaves_session`: an identity provider that
recognizes the key; the session survives the unauthenticate route. -/
theorem unauthenticate_leaves_session_witness :
    sessionData
      (unauthenticate
        (authenticate (fun _ => some (.objCons "canUpdate" (.bool true) .objNil))
          (some "api-key") noSessions).1).1
      (sessionKey "api-key") = some (.objCons "canUpdate" (.bool true) .objNil) :=
  (unauthenticate_leaves_session
    (fun _ => some (.objCons "canUpdate" (.bool true) .objNil))
    "api-key" (.objCons "canUpdate" (.bool true) .objNil) noSessions rfl).1

/-- CLAIM C9 — The `__authenticated` gate runs the wrapped operation exactly
when the request carries both parameters, the token equals the key's derived
token and the registry holds data for the token; the operation then sees the
truthiness of the stored identity's `canUpdate` entry.  In every other case
— a missing parameter, a mismatched token or an absent registry entry — the
wrapped operation is not invoked and the forbidden response is produced with
the store unchanged. -/
theorem authGate_spec {α : Type} (req : Request) (sess : Sessions)
    (f : Bool → Store → Store × α) (s : Store) :
    (∀ key tok data, req.key = some key → req.session = some tok →
      tok = sessionKey key → sessionData sess tok = some data →
      authGate req sess f s =
        ((f (getUpdateFlag data) s).1, .ok (f (getUpdateFlag data) s).2)) ∧
    (req.key = none ∨ req.session = none →
      authGate req sess f s = (s, .forbidden)) ∧
    (∀ key tok, req.key = some key → req.session = some tok →
      tok ≠ sessionKey key →
      authGate req sess f s = (s, .forbidden)) ∧
    (∀ key tok, req.key = some key → req.session = some tok →
      sessionData sess tok = none →
      authGate req sess f s = (s, .forbidden)) := by
  rcases req with ⟨keyQ, tokQ⟩
  refine ⟨?_, ?_, ?_, ?_⟩
  · rintro key tok data rfl rfl htok hdata
    subst htok
    simp [authGate, hdata]
  · rintro (h | h) <;> simp only at h <;> subst h
    · rfl
    · rcases keyQ with _ | key <;> rfl
  · rintro key tok rfl rfl htok
    simp [authGate, htok]
  · rintro key tok rfl rfl hdata
    by_cases htok : tok = sessionKey key
    · subst htok
      simp [authGate, hdata]
    · simp [authGate, htok]

/-- Witness for `authGate_spec`: with a registered session the gate runs the
wrapped operation on the `canUpdate` flag; with a mismatched token it
produces the forbidden response and an unchanged store. -/
theorem authGate_spec_witness :
    authGate ⟨some "api-key", some (sessionKey "api-key")⟩
      (newSession "api-key" (.objCons "canUpdate" (.bool true) .objNil)
        noSessions).2
      (fun b st => (st, b)) emptyStore =
      (emptyStore,
        .ok (getUpdateFlag (.objCons "canUpdate" (.bool true) .objNil))) ∧
    authGate ⟨some "api-key", some "bad-token"⟩
      (newSession "api-key" (.objCons "canUpdate" (.bool true) .objNil)
        noSessions).2
      (fun b st => (st, b)) emptyStore = (emptyStore, .forbidden) :=
  ⟨(authGate_spec ⟨some "api-key", some (sessionKey "api-key")⟩
      (newSession "api-key" (.objCons "canUpdate" (.bool true) .objNil)
        noSessions).2
      (fun b st => (st, b)) emptyStore).1 "api-key" (sessionKey "api-key")
      (.objCons "canUpdate" (.bool true) .objNil) rfl rfl rfl (by decide),
   (authGate_spec ⟨some "api-key", some "bad-token"⟩
      (newSession "api-key" (.objCons "canUpdate" (.bool true) .objNil)
        noSessions).2
      (fun b st => (st, b)) emptyStore).2.2.1 "api-key" "bad-token" rfl rfl
      (by decide)⟩

/-- CLAIM C10 — The `download` route is not wrapped in the authentication
gate: whatever the registry holds and whatever credential parameters the
request carries — including no credentials against an empty registry — it
returns the full `annotations()` listing of the store, so its output is
independent of the authentication state. -/
theorem download_unauthenticated (s : Store) (sess1 sess2 : Sessions)
    (req1 req2 : Request) :
    download sess1 req1 s = download sess2 req2 s ∧
    download sess1 req1 s = annotationsOp s none none ∧
    download noSessions ⟨none, none⟩ s = annotationsOp s none none :=
  ⟨rfl, rfl, rfl⟩

end Flatmap
